import Mathlib

/-!
Shallow embedding of the cycle inference and prediction engine of the
flow-index application (src/utils/dateUtils.ts, src/components/CalendarView.tsx,
src/components/CycleWheel.tsx).

Date model: every ISO `YYYY-MM-DD` date string is represented by its epoch-day
number (an `Int`, days since 1970-01-01).  In the source, `new Date(s)` for a
date-only ISO string yields the UTC midnight of that day, so
`new Date(s).getTime()` equals `epochDay * 86400000` exactly; with a zero
timezone offset `formatDateISO` is the identity on such values.  JavaScript
`number` arithmetic on the integers and exact dyadic fractions the engine
manipulates is modelled over `Int`/`ℚ` (those operations are exact in
binary64); the one place where the source computes with values that binary64
cannot represent — the weighted-average branch of `calculateSmartCycleAverage`,
whose literals 0.3 and 0.2 are inexact — is modelled with an explicit
round-to-nearest-even binary64 rounding (`roundDouble`) after every operation.
-/

namespace FlowIndex

/-- Flow intensity enumeration from `types.ts`
(`'Light' | 'Medium' | 'Heavy' | 'Spotting'`). -/
inductive FlowIntensity where
  | light
  | medium
  | heavy
  | spotting
deriving DecidableEq

/-- The fields of `DailyLog` that the cycle engine reads: the date and the
optional flow value.  The remaining fields (moods, symptoms, metrics, notes)
are never consulted by the embedded functions and are omitted. -/
structure DailyLog where
  date : Int
  flow : Option FlowIntensity
deriving DecidableEq

/-- `Cycle` from `types.ts`: `startDate` and `length` (the optional `endDate`
is never read by the embedded functions and is omitted).  This same shape is
the `SimpleCycle` interface of `dateUtils.ts`. -/
structure Cycle where
  startDate : Int
  length : Int
deriving DecidableEq

/-- Milliseconds of a civil day, `1000 * 3600 * 24`. -/
def msPerDay : Int := 86400000

/-- `new Date(isoString).getTime()` for a date-only ISO string: the UTC
midnight timestamp in milliseconds. -/
def dateTimeMs (epochDay : Int) : Int := epochDay * msPerDay

/-- `diffDaysBetween` from `dateUtils.ts`:
`Math.floor((new Date(d2).getTime() - new Date(d1).getTime()) / (1000*3600*24))`.
JavaScript `Math.floor` is floor division, hence `Int.fdiv`. -/
def diffDaysBetween (d1 d2 : Int) : Int :=
  Int.fdiv (dateTimeMs d2 - dateTimeMs d1) msPerDay

/-- Epoch-day number of the civil date `y-m-d` (proleptic Gregorian), used to
write the concrete dates appearing in the specification's test vectors. -/
def daysFromCivil (y m d : Int) : Int :=
  let y' := if m ≤ 2 then y - 1 else y
  let era := (if 0 ≤ y' then y' else y' - 399) / 400
  let yoe := y' - era * 400
  let mp := (m + 9) % 12
  let doy := (153 * mp + 2) / 5 + d - 1
  let doe := yoe * 365 + yoe / 4 - yoe / 100 + doy
  era * 146097 + doe - 719468

/-- JavaScript `Math.round` on an exact rational: round half toward
positive infinity, i.e. `⌊x + 0.5⌋`.  (ECMAScript defines `Math.round` as the
closest integer with ties toward +∞, which over the exact value of a binary64
argument is `⌊x + 0.5⌋` in exact arithmetic.) -/
def jsRound (x : ℚ) : Int := ⌊x + 0.5⌋

/-- Round a rational to the nearest integer with ties to even — the IEEE-754
default significand rounding. -/
def roundHalfEven (q : ℚ) : ℤ :=
  if q - ⌊q⌋ < 1 / 2 then ⌊q⌋
  else if 1 / 2 < q - ⌊q⌋ then ⌊q⌋ + 1
  else if ⌊q⌋ % 2 = 0 then ⌊q⌋ else ⌊q⌋ + 1

/-- Round a rational to the nearest IEEE-754 binary64 value (round to nearest,
ties to even): the nearest multiple of `2 ^ (e - 52)` where
`2 ^ e ≤ |q| < 2 ^ (e + 1)`.  Faithful for every normal, non-overflowing
magnitude, which covers every value the engine computes. -/
def roundDouble (q : ℚ) : ℚ :=
  if q = 0 then 0
  else if q < 0 then
    -((roundHalfEven (-q * 2 ^ ((52 : ℤ) - Int.log 2 (-q))) : ℚ) * 2 ^ (Int.log 2 (-q) - 52))
  else
    (roundHalfEven (q * 2 ^ ((52 : ℤ) - Int.log 2 q)) : ℚ) * 2 ^ (Int.log 2 q - 52)

/-- The completed in-range cycles considered by the smart average:
`history.slice(1)` filtered to `c.length >= 21 && c.length <= 45`
(`dateUtils.ts`, lines 49-51). -/
def validCycles (history : List Cycle) : List Cycle :=
  (history.drop 1).filter fun c => decide (21 ≤ c.length ∧ c.length ≤ 45)

/-- `calculateSmartCycleAverage` from `dateUtils.ts` (lines 47-72).  The 1-2
cycle branch is exact in binary64 (integer sums below `2^53`, division by 1 or
2); the weighted branch uses the binary64 values the literals `0.5`, `0.3`,
`0.2` denote and rounds after every multiplication and (left-associated)
addition, exactly as the doubles of the source behave. -/
def calculateSmartCycleAverage (history : List Cycle) (userDefault : Int) : Int :=
  let valid := validCycles history
  if valid.length = 0 then userDefault
  else if valid.length < 3 then
    let sum : Int := valid.foldl (fun acc c => acc + c.length) 0
    jsRound ((sum : ℚ) / (valid.length : ℚ))
  else
    let recent := valid.take 3
    let w1 : ℚ := roundDouble (1 / 2)
    let w2 : ℚ := roundDouble (3 / 10)
    let w3 : ℚ := roundDouble (1 / 5)
    let weightedSum : ℚ :=
      roundDouble (roundDouble (roundDouble (((recent.getD 0 ⟨0, 0⟩).length : ℚ) * w1)
          + roundDouble (((recent.getD 1 ⟨0, 0⟩).length : ℚ) * w2))
        + roundDouble (((recent.getD 2 ⟨0, 0⟩).length : ℚ) * w3))
    jsRound weightedSum

/-- `Math.min(...xs)` over a non-empty spread (the empty case is unreachable
in the source and defaults to 0 here). -/
def listMin : List Int → Int
  | [] => 0
  | x :: xs => xs.foldl min x

/-- `Math.max(...xs)` over a non-empty spread (the empty case is unreachable
in the source and defaults to 0 here). -/
def listMax : List Int → Int
  | [] => 0
  | x :: xs => xs.foldl max x

/-- The lengths considered by the regularity scorer:
`cycles.slice(1, 7).map(c => c.length).filter(l => l >= 21 && l <= 45)`
(`dateUtils.ts`, line 82). -/
def completedLengths (cycles : List Cycle) : List Int :=
  (((cycles.drop 1).take 6).map Cycle.length).filter fun l => decide (21 ≤ l ∧ l ≤ 45)

/-- `getCycleRegularity` from `dateUtils.ts` (lines 80-94). -/
def getCycleRegularity (cycles : List Cycle) : Int :=
  if cycles.length < 4 then 100
  else
    let lengths := completedLengths cycles
    if lengths.length < 2 then 100
    else
      let mn := listMin lengths
      let mx := listMax lengths
      let variation := mx - mn
      if variation ≤ 2 then 100
      else if variation ≤ 4 then 80
      else if variation ≤ 7 then 60
      else if variation ≤ 10 then 40
      else 20

/-- The comparator `(a, b) => new Date(a.date).getTime() - new Date(b.date).getTime()`
used to sort flow logs ascending by date. -/
def logLE (a b : DailyLog) : Prop := a.date ≤ b.date

instance : DecidableRel logLE := fun a b => inferInstanceAs (Decidable (a.date ≤ b.date))

instance : IsTotal DailyLog logLE := ⟨fun a b => le_total a.date b.date⟩

instance : IsTrans DailyLog logLE := ⟨fun _ _ _ h h' => le_trans h h'⟩

/-- The filter `l => l.flow && l.flow !== 'Spotting'` of `analyzeCyclesFromLogs`:
a log qualifies when it has a flow value that is not Spotting. -/
def qualifies (l : DailyLog) : Bool :=
  match l.flow with
  | some f => decide (f ≠ FlowIntensity.spotting)
  | none => false

/-- The scan loop of `analyzeCyclesFromLogs` (`dateUtils.ts`, lines 117-153):
walks the remaining sorted flow-log dates, tracking `currentCycleStart` and
`lastFlowLogDate`; a gap of more than 7 days closes the open cycle (with
`length = diffDaysBetween(prevStart, thisStart)`) and starts a new one.
Afterwards the still-open cycle is pushed with the default length and the
accumulated array is reversed. -/
def segmentLoop (defaultCycleLen : Int) :
    Int → Int → List Int → List Cycle → List Cycle
  | currentCycleStart, _lastFlowLogDate, [], cycles =>
      (cycles ++ [Cycle.mk currentCycleStart defaultCycleLen]).reverse
  | currentCycleStart, lastFlowLogDate, d :: rest, cycles =>
      if 7 < d - lastFlowLogDate then
        segmentLoop defaultCycleLen d d rest
          (cycles ++ [Cycle.mk currentCycleStart (diffDaysBetween currentCycleStart d)])
      else
        segmentLoop defaultCycleLen currentCycleStart d rest cycles

/-- `analyzeCyclesFromLogs` from `dateUtils.ts` (lines 106-157): filter to
non-Spotting flow logs, sort ascending by date, segment at gaps of more than
7 days, close with the open cycle at the default length, return newest first. -/
def analyzeCyclesFromLogs (logs : List DailyLog) (defaultCycleLen : Int) : List Cycle :=
  let flowLogs := List.insertionSort logLE (logs.filter qualifies)
  match flowLogs with
  | [] => []
  | l0 :: rest => segmentLoop defaultCycleLen l0.date l0.date (rest.map DailyLog.date) []

/-- The six status values the `CycleWheel` component can display. -/
inductive Phase where
  | notStarted
  | late
  | menstruation
  | fertileWindow
  | luteal
  | follicular
deriving DecidableEq

/-- `cycleDay` of `CycleWheel.tsx` (line 43):
`isFuture ? 1 : Math.max(1, daysDiff + 1)` where `daysDiff = today - start`. -/
def wheelCycleDay (today startDate : Int) : Int :=
  if today - startDate < 0 then 1 else max 1 (today - startDate + 1)

/-- The `Starts in N days` count shown in the Not Started state
(`CycleWheel.tsx`, line 69): `Math.abs(daysDiff)`. -/
def wheelDaysUntil (today startDate : Int) : Int := |today - startDate|

/-- The status selection of `CycleWheel.tsx` (lines 38-97): the if/else chain
over `isFuture`, `daysLeft < 0`, `isPeriod`, `isOvulationWindow`, `isLuteal`,
with follicular as the final fallback. -/
def wheelPhase (today startDate cycleLen periodLen : Int) : Phase :=
  let daysDiff := today - startDate
  let cycleDay := wheelCycleDay today startDate
  let daysLeft := cycleLen - cycleDay
  let ovulationDay := cycleLen - 14
  if daysDiff < 0 then Phase.notStarted
  else if daysLeft < 0 then Phase.late
  else if cycleDay ≤ periodLen then Phase.menstruation
  else if |cycleDay - ovulationDay| ≤ 2 then Phase.fertileWindow
  else if ovulationDay + 2 < cycleDay then Phase.luteal
  else Phase.follicular

/-- Modelled from the claim's wording, for comparison with `wheelPhase`:
if `daysDiff < 0` then Not Started; otherwise `cycleDay = daysDiff + 1` and
the first of Late (`daysLeft < 0`), Menstruation (`cycleDay <= periodLength`),
Fertile Window (`|cycleDay - (smartLength - 14)| <= 2`), Luteal
(`cycleDay > smartLength - 14 + 2`), Follicular, in that order. -/
def phaseSpecClaim (today startDate smartLength periodLength : Int) : Phase :=
  let daysDiff := today - startDate
  if daysDiff < 0 then Phase.notStarted
  else
    let cycleDay := daysDiff + 1
    let daysLeft := smartLength - cycleDay
    if daysLeft < 0 then Phase.late
    else if cycleDay ≤ periodLength then Phase.menstruation
    else if |cycleDay - (smartLength - 14)| ≤ 2 then Phase.fertileWindow
    else if smartLength - 14 + 2 < cycleDay then Phase.luteal
    else Phase.follicular

/-- One entry of the calendar `predictionData` map
(`CalendarView.tsx`, line 30). -/
structure Marker where
  isProjectedPeriod : Bool
  isFertile : Bool
  isOvulationDay : Bool
deriving DecidableEq

/-- A JS `Map<string, Marker>` keyed by ISO dates, modelled as an insertion
ordered association list with unique keys. -/
abbrev PredictionMap := List (Int × Marker)

/-- `map.set(iso, v)`: update the existing entry in place or append a new one
(JS `Map.set` keeps the original insertion position on update). -/
def mapSet (m : PredictionMap) (k : Int) (v : Marker) : PredictionMap :=
  if m.any (fun e => e.fst = k) then
    m.map fun e => if e.fst = k then (k, v) else e
  else m ++ [(k, v)]

/-- `map.get(iso)`: the entry at key `iso`, when present. -/
def mapGet (m : PredictionMap) (k : Int) : Option Marker :=
  (m.find? fun e => e.fst = k).map Prod.snd

/-- The body of the projection loop for one future cycle index `c`
(`CalendarView.tsx`, lines 51-86): mark `periodLen` projected-period days from
`nextStart = latestStart + smartLength * c`, then mark the fertile window at
offsets -5..+1 around `ovulationDate = nextStart - 14`, skipping any date whose
existing entry has `isProjectedPeriod` set. -/
def markFutureCycle (smartLength periodLen latestStart : Int)
    (m : PredictionMap) (c : Int) : PredictionMap :=
  let nextStart := latestStart + smartLength * c
  let afterPeriod := (List.range periodLen.toNat).foldl
    (fun acc i => mapSet acc (nextStart + (i : Int)) ⟨true, false, false⟩) m
  let ovulationDate := nextStart - 14
  (List.range 7).foldl
    (fun acc o' =>
      let o : Int := (o' : Int) - 5
      let day := ovulationDate + o
      match mapGet acc day with
      | some existing =>
          if existing.isProjectedPeriod then acc
          else mapSet acc day ⟨false, true, decide (o = 0)⟩
      | none => mapSet acc day ⟨false, true, decide (o = 0)⟩)
    afterPeriod

/-- The `predictionData` memo of `CalendarView.tsx` (lines 29-90), observed
through `map.get`: smart length from `calculateSmartCycleAverage`, period
length `settings.avgPeriodLength || 5` (JS `||`: 0 falls back to 5), then for
`c = 1..12` the projected period and fertile window of the `c`-th future cycle
anchored at `cycles[0].startDate`.  With no cycles the map stays empty. -/
def predictionData (cycles : List Cycle) (avgCycleLength avgPeriodLength : Int) :
    PredictionMap :=
  let smartLength := calculateSmartCycleAverage cycles avgCycleLength
  let periodLen := if avgPeriodLength = 0 then 5 else avgPeriodLength
  match cycles with
  | [] => []
  | c0 :: _ =>
      (List.range 12).foldl
        (fun m c' => markFutureCycle smartLength periodLen c0.startDate m ((c' : Int) + 1))
        []

/-! ## Helper lemmas -/

lemma diffDaysBetween_eq (d1 d2 : Int) : diffDaysBetween d1 d2 = d2 - d1 := by
  unfold diffDaysBetween dateTimeMs msPerDay
  rw [show d2 * 86400000 - d1 * 86400000 = (d2 - d1) * 86400000 by ring]
  exact Int.mul_fdiv_cancel _ (by norm_num)

lemma log_two_eq {q : ℚ} {e : ℤ} (h0 : 0 < q) (h1 : (2 : ℚ) ^ e ≤ q)
    (h2 : q < (2 : ℚ) ^ (e + 1)) : Int.log 2 q = e := by
  have ha : e ≤ Int.log 2 q := (Int.zpow_le_iff_le_log (by norm_num) h0).1 (by exact_mod_cast h1)
  have hb : Int.log 2 q < e + 1 := (Int.lt_zpow_iff_log_lt (by norm_num) h0).1 (by exact_mod_cast h2)
  exact le_antisymm (by linarith) ha

lemma roundDouble_eval (q : ℚ) (e n : ℤ) (v : ℚ) (h0 : 0 < q)
    (h1 : (2 : ℚ) ^ e ≤ q) (h2 : q < (2 : ℚ) ^ (e + 1))
    (hn : roundHalfEven (q * 2 ^ ((52 : ℤ) - e)) = n)
    (hv : (n : ℚ) * 2 ^ (e - 52) = v) :
    roundDouble q = v := by
  unfold roundDouble
  rw [if_neg h0.ne', if_neg (not_lt.2 h0.le), log_two_eq h0 h1 h2, hn, hv]

lemma roundHalfEven_close (q : ℚ) : |(roundHalfEven q : ℚ) - q| ≤ 1 / 2 := by
  have h1 := Int.floor_le q
  have h2 := Int.lt_floor_add_one q
  unfold roundHalfEven
  split_ifs with ha hb hc <;> (rw [abs_le]; push_cast; constructor <;> linarith)

lemma roundDouble_close {q : ℚ} (h0 : 0 < q) (h64 : q ≤ 64) :
    |roundDouble q - q| ≤ 1 / 2 ^ 46 := by
  have he1 : (2 : ℚ) ^ Int.log 2 q ≤ q := by
    exact_mod_cast Int.zpow_log_le_self (show (1 : ℕ) < 2 by norm_num) h0
  have he2 : q < (2 : ℚ) ^ (Int.log 2 q + 1) := by
    exact_mod_cast Int.lt_zpow_succ_log_self (show (1 : ℕ) < 2 by norm_num) q
  have he6 : Int.log 2 q ≤ 6 := by
    by_contra hcon
    push_neg at hcon
    have h7 : (2 : ℚ) ^ (7 : ℤ) ≤ (2 : ℚ) ^ Int.log 2 q :=
      zpow_le_zpow_right₀ (by norm_num) (by linarith)
    have h128 : (128 : ℚ) ≤ q :=
      le_trans (by norm_num [show ((2 : ℚ) ^ (7 : ℤ)) = 128 by norm_num]) (le_trans h7 he1)
    linarith
  unfold roundDouble
  rw [if_neg h0.ne', if_neg (not_lt.2 h0.le)]
  have hrhe := roundHalfEven_close (q * 2 ^ ((52 : ℤ) - Int.log 2 q))
  have hqcancel : q * 2 ^ ((52 : ℤ) - Int.log 2 q) * 2 ^ (Int.log 2 q - 52) = q := by
    rw [mul_assoc, ← zpow_add₀ (two_ne_zero : (2 : ℚ) ≠ 0)]
    norm_num
  have hpos : (0 : ℚ) < 2 ^ (Int.log 2 q - 52) := by positivity
  have key : |(roundHalfEven (q * 2 ^ ((52 : ℤ) - Int.log 2 q)) : ℚ) * 2 ^ (Int.log 2 q - 52) - q|
      = |(roundHalfEven (q * 2 ^ ((52 : ℤ) - Int.log 2 q)) : ℚ)
            - q * 2 ^ ((52 : ℤ) - Int.log 2 q)| * 2 ^ (Int.log 2 q - 52) := by
    rw [← abs_of_pos hpos, ← abs_mul, sub_mul, hqcancel]
    rw [abs_of_pos hpos]
  rw [key]
  have hexp : (2 : ℚ) ^ (Int.log 2 q - 52) ≤ 2 ^ (-(46 : ℤ)) :=
    zpow_le_zpow_right₀ (by norm_num) (by linarith)
  have hfin : (2 : ℚ) ^ (-(46 : ℤ)) = 1 / 2 ^ 46 := by
    rw [zpow_neg]
    norm_num
  calc |(roundHalfEven (q * 2 ^ ((52 : ℤ) - Int.log 2 q)) : ℚ)
          - q * 2 ^ ((52 : ℤ) - Int.log 2 q)| * 2 ^ (Int.log 2 q - 52)
      ≤ (1 / 2) * 2 ^ (-(46 : ℤ)) := by
        apply mul_le_mul hrhe hexp (le_of_lt hpos) (by norm_num)
    _ ≤ 1 / 2 ^ 46 := by
        rw [hfin]
        norm_num

lemma roundDouble_half : roundDouble ((1 : ℚ) / 2) = (1 : ℚ) / 2 :=
  roundDouble_eval _ (-1) 4503599627370496 _ (by norm_num) (by norm_num) (by norm_num)
    (by norm_num [roundHalfEven]) (by norm_num)

lemma roundDouble_threeTenths :
    roundDouble ((3 : ℚ) / 10) = (5404319552844595 : ℚ) / 18014398509481984 :=
  roundDouble_eval _ (-2) 5404319552844595 _ (by norm_num) (by norm_num) (by norm_num)
    (by norm_num [roundHalfEven]) (by norm_num)

lemma roundDouble_oneFifth :
    roundDouble ((1 : ℚ) / 5) = (3602879701896397 : ℚ) / 18014398509481984 :=
  roundDouble_eval _ (-3) 7205759403792794 _ (by norm_num) (by norm_num) (by norm_num)
    (by norm_num [roundHalfEven]) (by norm_num)

lemma mem_validCycles {history : List Cycle} {c : Cycle} (hc : c ∈ validCycles history) :
    21 ≤ c.length ∧ c.length ≤ 45 := by
  have h := List.mem_filter.1 hc
  simpa using h.2

lemma jsRound_bounds {x : ℚ} {lo hi : Int} (h1 : (lo : ℚ) ≤ x) (h2 : x ≤ (hi : ℚ)) :
    lo ≤ jsRound x ∧ jsRound x ≤ hi := by
  constructor
  · exact Int.le_floor.2 (by linarith)
  · have h : jsRound x < hi + 1 := Int.floor_lt.2 (by push_cast; linarith)
    omega

lemma smart_nil {history : List Cycle} {ud : Int} (h : validCycles history = []) :
    calculateSmartCycleAverage history ud = ud := by
  simp [calculateSmartCycleAverage, h]

lemma smart_one {history : List Cycle} {ud : Int} {a : Cycle} (h : validCycles history = [a]) :
    calculateSmartCycleAverage history ud = jsRound ((a.length : ℚ) / 1) := by
  simp [calculateSmartCycleAverage, h]

lemma smart_two {history : List Cycle} {ud : Int} {a b : Cycle}
    (h : validCycles history = [a, b]) :
    calculateSmartCycleAverage history ud = jsRound (((a.length : ℚ) + (b.length : ℚ)) / 2) := by
  simp [calculateSmartCycleAverage, h]

lemma smart_wma {history : List Cycle} {ud : Int} {a b c : Cycle} {rest : List Cycle}
    (h : validCycles history = a :: b :: c :: rest) :
    calculateSmartCycleAverage history ud =
      jsRound (roundDouble (roundDouble (roundDouble ((a.length : ℚ) * roundDouble (1 / 2))
          + roundDouble ((b.length : ℚ) * roundDouble (3 / 10)))
        + roundDouble ((c.length : ℚ) * roundDouble (1 / 5)))) := by
  simp [calculateSmartCycleAverage, h, List.take, List.getD]

/-! ## Claim theorems -/

/-- C5: the day-difference utility used for period-boundary detection
(`diffDaysBetween`) returns the signed whole-day difference `d2 - d1` for every
pair of valid ISO dates; because timestamps of ISO dates divide exactly, the
floor it computes coincides with truncation toward zero (and is neither rounded
nor absolute-valued). -/
theorem diffDaysBetween_signed_whole_days :
    ∀ d1 d2 : Int,
      diffDaysBetween d1 d2 = d2 - d1 ∧
      diffDaysBetween d1 d2 = Int.tdiv (dateTimeMs d2 - dateTimeMs d1) msPerDay := by
  intro d1 d2
  refine ⟨diffDaysBetween_eq d1 d2, ?_⟩
  rw [diffDaysBetween_eq d1 d2]
  unfold dateTimeMs msPerDay
  rw [show d2 * 86400000 - d1 * 86400000 = (d2 - d1) * 86400000 by ring]
  exact (Int.mul_tdiv_cancel _ (by norm_num)).symm

/-- C3 counterexample: the claim as stated fails on the code — at valid
lengths [21, 36, 21] the binary64 evaluation of the weighted sum is just below
25.5 and the program returns 25, while the claim's exactly rounded weighted
average, round(21*0.5 + 36*0.3 + 21*0.2) = round(25.5), is 26. -/
theorem calculateSmartCycleAverage_wma_weights_counterexample :
    calculateSmartCycleAverage
        [Cycle.mk 0 0, Cycle.mk 0 21, Cycle.mk 0 36, Cycle.mk 0 21] 28 = 25 ∧
    jsRound ((21 : ℚ) * 0.5 + (36 : ℚ) * 0.3 + (21 : ℚ) * 0.2) = 26 := by
  constructor
  · have hv : validCycles [Cycle.mk 0 0, Cycle.mk 0 21, Cycle.mk 0 36, Cycle.mk 0 21]
        = [Cycle.mk 0 21, Cycle.mk 0 36, Cycle.mk 0 21] := by decide
    rw [smart_wma hv]
    norm_num [roundDouble_half, roundDouble_threeTenths, roundDouble_oneFifth]
    rw [show roundDouble ((21 : ℚ) / 2) = ((21 : ℚ) / 2) from
      roundDouble_eval _ 3 5910974510923776 _ (by norm_num) (by norm_num) (by norm_num)
        (by norm_num [roundHalfEven]) (by norm_num)]
    rw [show roundDouble ((48638875975601355 : ℚ) / 4503599627370496)
          = ((6079859496950169 : ℚ) / 562949953421312) from
      roundDouble_eval _ 3 6079859496950169 _ (by norm_num) (by norm_num) (by norm_num)
        (by norm_num [roundHalfEven]) (by norm_num)]
    rw [show roundDouble ((75660473739824337 : ℚ) / 18014398509481984)
          = ((4728779608739021 : ℚ) / 1125899906842624) from
      roundDouble_eval _ 2 4728779608739021 _ (by norm_num) (by norm_num) (by norm_num)
        (by norm_num [roundHalfEven]) (by norm_num)]
    norm_num
    rw [show roundDouble ((11990834007873945 : ℚ) / 562949953421312)
          = ((1498854250984243 : ℚ) / 70368744177664) from
      roundDouble_eval _ 4 5995417003936972 _ (by norm_num) (by norm_num) (by norm_num)
        (by norm_num [roundHalfEven]) (by norm_num)]
    norm_num
    rw [show roundDouble ((28710447624486909 : ℚ) / 1125899906842624)
          = ((7177611906121727 : ℚ) / 281474976710656) from
      roundDouble_eval _ 4 7177611906121727 _ (by norm_num) (by norm_num) (by norm_num)
        (by norm_num [roundHalfEven]) (by norm_num)]
    norm_num [jsRound]
  · norm_num [jsRound]

/-- C3 (corrected): with at least 3 valid completed cycles the function
returns `Math.round` of the weighted sum of the 3 most recent valid cycles
(weights 0.5, 0.3, 0.2 in list order) evaluated in binary64 arithmetic: the
weights are the doubles the literals denote and every multiplication and
left-associated addition is rounded to nearest.  This agrees with the exactly
rounded weighted average except where the double sum lands on the other side
of a half-integer; concretely, valid lengths [30, 28, 26] newest-first still
give 29. -/
theorem calculateSmartCycleAverage_wma_weights :
    (∀ (history : List Cycle) (ud : Int) (a b c : Cycle) (rest : List Cycle),
      validCycles history = a :: b :: c :: rest →
      calculateSmartCycleAverage history ud =
        jsRound (roundDouble (roundDouble (roundDouble ((a.length : ℚ) * roundDouble (1 / 2))
            + roundDouble ((b.length : ℚ) * roundDouble (3 / 10)))
          + roundDouble ((c.length : ℚ) * roundDouble (1 / 5))))) ∧
    calculateSmartCycleAverage
      [Cycle.mk 0 0, Cycle.mk 0 30, Cycle.mk 0 28, Cycle.mk 0 26] 28 = 29 := by
  constructor
  · intro history ud a b c rest h
    exact smart_wma h
  · have hv : validCycles [Cycle.mk 0 0, Cycle.mk 0 30, Cycle.mk 0 28, Cycle.mk 0 26]
        = [Cycle.mk 0 30, Cycle.mk 0 28, Cycle.mk 0 26] := by decide
    rw [smart_wma hv]
    norm_num [roundDouble_half, roundDouble_threeTenths, roundDouble_oneFifth]
    rw [show roundDouble (15 : ℚ) = (15 : ℚ) from
      roundDouble_eval _ 3 8444249301319680 _ (by norm_num) (by norm_num) (by norm_num)
        (by norm_num [roundHalfEven]) (by norm_num)]
    rw [show roundDouble ((37830236869912165 : ℚ) / 4503599627370496)
          = ((4728779608739021 : ℚ) / 562949953421312) from
      roundDouble_eval _ 3 4728779608739021 _ (by norm_num) (by norm_num) (by norm_num)
        (by norm_num [roundHalfEven]) (by norm_num)]
    rw [show roundDouble ((46837436124653161 : ℚ) / 9007199254740992)
          = ((5854679515581645 : ℚ) / 1125899906842624) from
      roundDouble_eval _ 2 5854679515581645 _ (by norm_num) (by norm_num) (by norm_num)
        (by norm_num [roundHalfEven]) (by norm_num)]
    norm_num
    rw [show roundDouble ((13173028910058701 : ℚ) / 562949953421312)
          = ((3293257227514675 : ℚ) / 140737488355328) from
      roundDouble_eval _ 4 6586514455029350 _ (by norm_num) (by norm_num) (by norm_num)
        (by norm_num [roundHalfEven]) (by norm_num)]
    norm_num
    rw [show roundDouble ((32200737335699045 : ℚ) / 1125899906842624)
          = ((8050184333924761 : ℚ) / 281474976710656) from
      roundDouble_eval _ 4 8050184333924761 _ (by norm_num) (by norm_num) (by norm_num)
        (by norm_num [roundHalfEven]) (by norm_num)]
    norm_num [jsRound]

/-- C3 witness: the general binary64 weighted-average equation applied to the
concrete history whose valid cycles have lengths 30, 28, 26. -/
theorem calculateSmartCycleAverage_wma_weights_witness :
    calculateSmartCycleAverage
        [Cycle.mk 0 0, Cycle.mk 0 30, Cycle.mk 0 28, Cycle.mk 0 26] 28 =
      jsRound (roundDouble (roundDouble (roundDouble ((30 : ℚ) * roundDouble (1 / 2))
          + roundDouble ((28 : ℚ) * roundDouble (3 / 10)))
        + roundDouble ((26 : ℚ) * roundDouble (1 / 5)))) := by
  have h := calculateSmartCycleAverage_wma_weights.1
    [Cycle.mk 0 0, Cycle.mk 0 30, Cycle.mk 0 28, Cycle.mk 0 26] 28
    (Cycle.mk 0 30) (Cycle.mk 0 28) (Cycle.mk 0 26) [] (by decide)
  simpa using h

/-- C6: `calculateSmartCycleAverage` is determined by the valid cycles alone
(outliers and the index-0 cycle are discarded, never clamped), returns
`userDefault` when no valid cycle remains, and the rounded unweighted mean for
1 or 2 valid cycles; concretely `smartAverage [] 28 = 28` and
`smartAverage [{length:60}] 28 = 28`. -/
theorem calculateSmartCycleAverage_fallback_and_discard :
    (∀ (h1 h2 : List Cycle) (ud : Int), validCycles h1 = validCycles h2 →
      calculateSmartCycleAverage h1 ud = calculateSmartCycleAverage h2 ud) ∧
    (∀ (history : List Cycle) (ud : Int), validCycles history = [] →
      calculateSmartCycleAverage history ud = ud) ∧
    (∀ (history : List Cycle) (ud : Int) (a : Cycle), validCycles history = [a] →
      calculateSmartCycleAverage history ud = jsRound ((a.length : ℚ) / 1)) ∧
    (∀ (history : List Cycle) (ud : Int) (a b : Cycle), validCycles history = [a, b] →
      calculateSmartCycleAverage history ud = jsRound (((a.length : ℚ) + (b.length : ℚ)) / 2)) ∧
    calculateSmartCycleAverage [] 28 = 28 ∧
    calculateSmartCycleAverage [Cycle.mk 0 60] 28 = 28 := by
  refine ⟨?_, ?_, ?_, ?_, ?_, ?_⟩
  · intro h1 h2 ud h
    simp only [calculateSmartCycleAverage, h]
  · intro history ud h
    exact smart_nil h
  · intro history ud a h
    exact smart_one h
  · intro history ud a b h
    exact smart_two h
  · simp [calculateSmartCycleAverage, validCycles]
  · simp [calculateSmartCycleAverage, validCycles]

/-- C6 witness: the fallback clause applied to the empty history. -/
theorem calculateSmartCycleAverage_fallback_and_discard_witness :
    calculateSmartCycleAverage [] 28 = 28 :=
  calculateSmartCycleAverage_fallback_and_discard.2.1 [] 28 (by decide)

/-- C10: whenever at least one valid completed cycle exists, the smart average
lies in the physiologically plausible range [21, 45], regardless of
`userDefault`. -/
theorem calculateSmartCycleAverage_plausible_range :
    ∀ (history : List Cycle) (ud : Int), validCycles history ≠ [] →
      21 ≤ calculateSmartCycleAverage history ud ∧
      calculateSmartCycleAverage history ud ≤ 45 := by
  intro history ud hne
  have hmem : ∀ c ∈ validCycles history, 21 ≤ c.length ∧ c.length ≤ 45 :=
    fun c hc => mem_validCycles hc
  match h : validCycles history with
  | [] => exact absurd h hne
  | [a] =>
      have ha := hmem a (h ▸ List.mem_cons_self a [])
      have haq : (21 : ℚ) ≤ (a.length : ℚ) ∧ (a.length : ℚ) ≤ 45 :=
        ⟨by exact_mod_cast ha.1, by exact_mod_cast ha.2⟩
      rw [smart_one h]
      exact jsRound_bounds (by linarith [haq.1]) (by linarith [haq.2])
  | [a, b] =>
      have ha := hmem a (h ▸ List.mem_cons_self a [b])
      have hb := hmem b (h ▸ List.mem_cons_of_mem a (List.mem_cons_self b []))
      have haq : (21 : ℚ) ≤ (a.length : ℚ) ∧ (a.length : ℚ) ≤ 45 :=
        ⟨by exact_mod_cast ha.1, by exact_mod_cast ha.2⟩
      have hbq : (21 : ℚ) ≤ (b.length : ℚ) ∧ (b.length : ℚ) ≤ 45 :=
        ⟨by exact_mod_cast hb.1, by exact_mod_cast hb.2⟩
      rw [smart_two h]
      refine jsRound_bounds ?_ ?_
      · linarith [haq.1, hbq.1]
      · linarith [haq.2, hbq.2]
  | a :: b :: c :: rest =>
      have ha := hmem a (h ▸ List.mem_cons_self a _)
      have hb := hmem b (h ▸ List.mem_cons_of_mem a (List.mem_cons_self b _))
      have hc := hmem c
        (h ▸ List.mem_cons_of_mem a (List.mem_cons_of_mem b (List.mem_cons_self c _)))
      have haq : (21 : ℚ) ≤ (a.length : ℚ) ∧ (a.length : ℚ) ≤ 45 :=
        ⟨by exact_mod_cast ha.1, by exact_mod_cast ha.2⟩
      have hbq : (21 : ℚ) ≤ (b.length : ℚ) ∧ (b.length : ℚ) ≤ 45 :=
        ⟨by exact_mod_cast hb.1, by exact_mod_cast hb.2⟩
      have hcq : (21 : ℚ) ≤ (c.length : ℚ) ∧ (c.length : ℚ) ≤ 45 :=
        ⟨by exact_mod_cast hc.1, by exact_mod_cast hc.2⟩
      rw [smart_wma h, roundDouble_half, roundDouble_threeTenths, roundDouble_oneFifth]
      have hsmall : (1 : ℚ) / 2 ^ 46 < 1 / 1000 := by norm_num
      have hp1 := roundDouble_close
        (show (0 : ℚ) < (a.length : ℚ) * ((1 : ℚ) / 2) by linarith [haq.1])
        (show (a.length : ℚ) * ((1 : ℚ) / 2) ≤ 64 by linarith [haq.2])
      rw [abs_le] at hp1
      have hp2 := roundDouble_close
        (show (0 : ℚ) < (b.length : ℚ) * ((5404319552844595 : ℚ) / 18014398509481984) by
          linarith [hbq.1])
        (show (b.length : ℚ) * ((5404319552844595 : ℚ) / 18014398509481984) ≤ 64 by
          linarith [hbq.2])
      rw [abs_le] at hp2
      have hp3 := roundDouble_close
        (show (0 : ℚ) < (c.length : ℚ) * ((3602879701896397 : ℚ) / 18014398509481984) by
          linarith [hcq.1])
        (show (c.length : ℚ) * ((3602879701896397 : ℚ) / 18014398509481984) ≤ 64 by
          linarith [hcq.2])
      rw [abs_le] at hp3
      set P1 := roundDouble ((a.length : ℚ) * ((1 : ℚ) / 2)) with hP1def
      set P2 := roundDouble ((b.length : ℚ) * ((5404319552844595 : ℚ) / 18014398509481984))
        with hP2def
      set P3 := roundDouble ((c.length : ℚ) * ((3602879701896397 : ℚ) / 18014398509481984))
        with hP3def
      have hs1 := roundDouble_close
        (show (0 : ℚ) < P1 + P2 by linarith [hp1.1, hp2.1, haq.1, hbq.1, hsmall])
        (show P1 + P2 ≤ 64 by linarith [hp1.2, hp2.2, haq.2, hbq.2, hsmall])
      rw [abs_le] at hs1
      set S1 := roundDouble (P1 + P2) with hS1def
      have hs2 := roundDouble_close
        (show (0 : ℚ) < S1 + P3 by
          linarith [hs1.1, hp1.1, hp2.1, hp3.1, haq.1, hbq.1, hcq.1, hsmall])
        (show S1 + P3 ≤ 64 by
          linarith [hs1.2, hp1.2, hp2.2, hp3.2, haq.2, hbq.2, hcq.2, hsmall])
      rw [abs_le] at hs2
      set S2 := roundDouble (S1 + P3) with hS2def
      constructor
      · simp only [jsRound]
        exact Int.le_floor.2 (by
          push_cast
          linarith [hs2.1, hs1.1, hp1.1, hp2.1, hp3.1, haq.1, hbq.1, hcq.1, hsmall])
      · simp only [jsRound]
        have h46 : ⌊S2 + 0.5⌋ < 46 := Int.floor_lt.2 (by
          push_cast
          linarith [hs2.2, hs1.2, hp1.2, hp2.2, hp3.2, haq.2, hbq.2, hcq.2, hsmall])
        omega

/-- C10 witness: a history with a single valid completed cycle of length 30
yields a smart average inside [21, 45]. -/
theorem calculateSmartCycleAverage_plausible_range_witness :
    21 ≤ calculateSmartCycleAverage [Cycle.mk 0 0, Cycle.mk 0 30] 28 ∧
      calculateSmartCycleAverage [Cycle.mk 0 0, Cycle.mk 0 30] 28 ≤ 45 :=
  calculateSmartCycleAverage_plausible_range [Cycle.mk 0 0, Cycle.mk 0 30] 28 (by decide)

/-- C7: the regularity score is 100 with fewer than 4 cycles total or fewer
than 2 surviving filtered lengths; otherwise it is the step function of
`variation = max - min` of the surviving lengths with breakpoints at 2, 4, 7
and 10; the result always lies in [0, 100]. -/
theorem getCycleRegularity_thresholds :
    ∀ cycles : List Cycle,
      (cycles.length < 4 → getCycleRegularity cycles = 100) ∧
      ((completedLengths cycles).length < 2 → getCycleRegularity cycles = 100) ∧
      (4 ≤ cycles.length → 2 ≤ (completedLengths cycles).length →
        getCycleRegularity cycles =
          (if listMax (completedLengths cycles) - listMin (completedLengths cycles) ≤ 2 then 100
           else if listMax (completedLengths cycles) - listMin (completedLengths cycles) ≤ 4 then 80
           else if listMax (completedLengths cycles) - listMin (completedLengths cycles) ≤ 7 then 60
           else if listMax (completedLengths cycles) - listMin (completedLengths cycles) ≤ 10 then 40
           else 20)) ∧
      (0 ≤ getCycleRegularity cycles ∧ getCycleRegularity cycles ≤ 100) := by
  intro cycles
  refine ⟨?_, ?_, ?_, ?_⟩
  · intro h
    simp [getCycleRegularity, h]
  · intro h
    by_cases h4 : cycles.length < 4 <;> simp [getCycleRegularity, h, h4]
  · intro h4 h2
    simp [getCycleRegularity, show ¬cycles.length < 4 by omega,
      show ¬(completedLengths cycles).length < 2 by omega]
  · simp only [getCycleRegularity]
    split_ifs <;> norm_num

/-- C7 witness: four cycles whose completed lengths are [28, 35, 30] give
variation 7 and score 60 through the step function. -/
theorem getCycleRegularity_thresholds_witness :
    getCycleRegularity [Cycle.mk 0 28, Cycle.mk 0 28, Cycle.mk 0 35, Cycle.mk 0 30] = 60 := by
  have h := (getCycleRegularity_thresholds
    [Cycle.mk 0 28, Cycle.mk 0 28, Cycle.mk 0 35, Cycle.mk 0 30]).2.2.1
    (by decide) (by decide)
  rw [h]
  decide

/-- C4: the CycleWheel phase classifier is the claim's strict top-to-bottom
decision tree: `daysDiff < 0` gives Not Started with `daysUntil = |daysDiff|`;
otherwise `cycleDay = daysDiff + 1` and the first of Late, Menstruation,
Fertile Window, Luteal, Follicular whose condition holds is selected, so
`cycleDay = periodLength` classifies as Menstruation and
`cycleDay = periodLength + 1` as Follicular outside the fertile and luteal
windows. -/
theorem cycleWheel_phase_decision_tree :
    ∀ today startDate smartLength periodLength : Int,
      wheelPhase today startDate smartLength periodLength =
        phaseSpecClaim today startDate smartLength periodLength ∧
      (today - startDate < 0 →
        wheelPhase today startDate smartLength periodLength = Phase.notStarted ∧
        wheelDaysUntil today startDate = startDate - today) ∧
      (0 ≤ today - startDate →
        wheelCycleDay today startDate = today - startDate + 1) ∧
      (0 ≤ today - startDate → today - startDate + 1 = periodLength →
        0 ≤ smartLength - periodLength →
        wheelPhase today startDate smartLength periodLength = Phase.menstruation) ∧
      (0 ≤ today - startDate → today - startDate + 1 = periodLength + 1 →
        0 ≤ smartLength - (periodLength + 1) →
        2 < |periodLength + 1 - (smartLength - 14)| →
        periodLength + 1 ≤ smartLength - 14 + 2 →
        wheelPhase today startDate smartLength periodLength = Phase.follicular) := by
  intro today startDate smartLength periodLength
  refine ⟨?_, ?_, ?_, ?_, ?_⟩
  · rcases lt_or_le (today - startDate) 0 with h | h
    · simp [wheelPhase, phaseSpecClaim, wheelCycleDay, h]
    · have hcd : wheelCycleDay today startDate = today - startDate + 1 := by
        simp only [wheelCycleDay, if_neg (by omega : ¬today - startDate < 0)]
        exact max_eq_right (by omega)
      simp [wheelPhase, phaseSpecClaim, hcd, show ¬today - startDate < 0 by omega]
  · intro h
    constructor
    · simp [wheelPhase, h]
    · simp only [wheelDaysUntil]
      rw [abs_of_neg h]
      ring
  · intro h
    simp only [wheelCycleDay, if_neg (by omega : ¬today - startDate < 0)]
    exact max_eq_right (by omega)
  · intro h hpl hml
    have hcd : wheelCycleDay today startDate = today - startDate + 1 := by
      simp only [wheelCycleDay, if_neg (by omega : ¬today - startDate < 0)]
      exact max_eq_right (by omega)
    simp only [wheelPhase, hcd, if_neg (by omega : ¬today - startDate < 0)]
    rw [if_neg (by omega : ¬smartLength - (today - startDate + 1) < 0),
      if_pos (by omega : today - startDate + 1 ≤ periodLength)]
  · intro h hpl hml habs hlut
    have hcd : wheelCycleDay today startDate = today - startDate + 1 := by
      simp only [wheelCycleDay, if_neg (by omega : ¬today - startDate < 0)]
      exact max_eq_right (by omega)
    simp only [wheelPhase, hcd, if_neg (by omega : ¬today - startDate < 0)]
    rw [if_neg (by omega : ¬smartLength - (today - startDate + 1) < 0),
      if_neg (by omega : ¬today - startDate + 1 ≤ periodLength),
      if_neg (show ¬|today - startDate + 1 - (smartLength - 14)| ≤ 2 by
        rw [hpl]; exact not_le.mpr habs),
      if_neg (by omega : ¬smartLength - 14 + 2 < today - startDate + 1)]

/-- C4 witness: with smart length 28 and period length 5, cycle day 5 (the
last period day) classifies as Menstruation and cycle day 6 as Follicular. -/
theorem cycleWheel_phase_decision_tree_witness :
    wheelPhase 4 0 28 5 = Phase.menstruation ∧ wheelPhase 5 0 28 5 = Phase.follicular :=
  ⟨(cycleWheel_phase_decision_tree 4 0 28 5).2.2.2.1 (by decide) (by decide) (by decide),
   (cycleWheel_phase_decision_tree 5 0 28 5).2.2.2.2 (by decide) (by decide) (by decide)
     (by decide) (by decide)⟩

lemma analyze_congr {logs1 logs2 : List DailyLog}
    (h : logs1.filter qualifies = logs2.filter qualifies) (defLen : Int) :
    analyzeCyclesFromLogs logs1 defLen = analyzeCyclesFromLogs logs2 defLen := by
  simp only [analyzeCyclesFromLogs, h]

lemma segmentLoop_sorted (defLen : Int) :
    ∀ (ds : List Int) (start last : Int) (acc : List Cycle),
      List.Chain (· ≤ ·) last ds → start ≤ last →
      (∀ x ∈ acc, x.startDate < start) →
      List.Pairwise (fun a b => a.startDate < b.startDate) acc →
      List.Pairwise (fun a b : Cycle => b.startDate < a.startDate)
          (segmentLoop defLen start last ds acc) ∧
      ∃ s, (segmentLoop defLen start last ds acc).head? = some (Cycle.mk s defLen) := by
  intro ds
  induction ds with
  | nil =>
      intro start last acc _ _ hlt hpw
      constructor
      · simp only [segmentLoop]
        rw [List.pairwise_reverse]
        refine List.pairwise_append.2 ⟨hpw, List.pairwise_singleton _ _, ?_⟩
        intro a ha b hb
        simp only [List.mem_singleton] at hb
        subst hb
        exact hlt a ha
      · refine ⟨start, ?_⟩
        simp [segmentLoop]
  | cons d rest ih =>
      intro start last acc hchain hsl hlt hpw
      rw [List.chain_cons] at hchain
      obtain ⟨hld, hchain'⟩ := hchain
      by_cases h7 : 7 < d - last
      · simp only [segmentLoop, if_pos h7]
        apply ih d d _ hchain' le_rfl
        · intro x hx
          rcases List.mem_append.1 hx with hx | hx
          · have h1 : x.startDate < start := hlt x hx
            omega
          · simp only [List.mem_singleton] at hx
            subst hx
            simp only []
            omega
        · refine List.pairwise_append.2 ⟨hpw, List.pairwise_singleton _ _, ?_⟩
          intro a ha b hb
          simp only [List.mem_singleton] at hb
          subst hb
          exact hlt a ha
      · simp only [segmentLoop, if_neg h7]
        exact ih start d acc hchain' (le_trans hsl hld) hlt hpw

lemma analyze_sorted_head (logs : List DailyLog) (defLen : Int) :
    List.Pairwise (fun a b : Cycle => b.startDate < a.startDate)
        (analyzeCyclesFromLogs logs defLen) ∧
    ∀ c, (analyzeCyclesFromLogs logs defLen).head? = some c → c.length = defLen := by
  rcases h : List.insertionSort logLE (logs.filter qualifies) with _ | ⟨l0, rest⟩
  · constructor
    · simp [analyzeCyclesFromLogs, h]
    · intro c hc
      simp [analyzeCyclesFromLogs, h] at hc
  · have hs : List.Sorted logLE (l0 :: rest) := h ▸ List.sorted_insertionSort logLE _
    have hc' : List.Chain logLE l0 rest := hs.chain'
    have hch : List.Chain (· ≤ ·) l0.date (rest.map DailyLog.date) :=
      (List.chain_map DailyLog.date).2 hc'
    have hmain := segmentLoop_sorted defLen (rest.map DailyLog.date) l0.date l0.date []
      hch le_rfl (by simp) (by simp)
    constructor
    · have := hmain.1
      simpa [analyzeCyclesFromLogs, h] using this
    · intro c hc
      obtain ⟨s, hh⟩ := hmain.2
      simp only [analyzeCyclesFromLogs, h] at hc
      rw [hh] at hc
      cases hc
      rfl

lemma insertionSort_pair {a b : DailyLog} (h : logLE a b) :
    List.insertionSort logLE [a, b] = [a, b] := by
  simp [List.insertionSort, List.orderedInsert, h]

lemma analyze_two_logs (d1 d2 defLen : Int) (f1 f2 : FlowIntensity)
    (hf1 : f1 ≠ FlowIntensity.spotting) (hf2 : f2 ≠ FlowIntensity.spotting)
    (hlt : d1 < d2) :
    (d2 - d1 ≤ 7 →
      analyzeCyclesFromLogs [⟨d1, some f1⟩, ⟨d2, some f2⟩] defLen =
        [Cycle.mk d1 defLen]) ∧
    (8 ≤ d2 - d1 →
      analyzeCyclesFromLogs [⟨d1, some f1⟩, ⟨d2, some f2⟩] defLen =
        [Cycle.mk d2 defLen, Cycle.mk d1 (d2 - d1)]) := by
  have hq1 : qualifies ⟨d1, some f1⟩ = true := by simp [qualifies, hf1]
  have hq2 : qualifies ⟨d2, some f2⟩ = true := by simp [qualifies, hf2]
  have hfil : ([⟨d1, some f1⟩, ⟨d2, some f2⟩] : List DailyLog).filter qualifies =
      [⟨d1, some f1⟩, ⟨d2, some f2⟩] := by
    simp [List.filter, hq1, hq2]
  have hsorted : List.insertionSort logLE
      (([⟨d1, some f1⟩, ⟨d2, some f2⟩] : List DailyLog).filter qualifies) =
      [⟨d1, some f1⟩, ⟨d2, some f2⟩] := by
    rw [hfil]
    exact insertionSort_pair (le_of_lt hlt)
  constructor
  · intro hgap
    simp only [analyzeCyclesFromLogs, hsorted]
    simp [segmentLoop, show ¬7 < d2 - d1 by omega]
  · intro hgap
    simp only [analyzeCyclesFromLogs, hsorted]
    simp [segmentLoop, show 7 < d2 - d1 by omega, diffDaysBetween_eq]

/-- C1: for a pair of flow-positive logs, a gap of at most 7 days keeps both
logs in one cycle while a gap of 8 or more days emits a completed cycle whose
`startDate` is the previous start and whose `length` is the day difference to
the new start; concretely, Medium logs on 2024-01-01 and 2024-01-08 yield one
cycle starting 2024-01-01, while 2024-01-01 and 2024-01-09 yield two cycles. -/
theorem analyzeCyclesFromLogs_boundary_threshold :
    (∀ (d1 d2 defLen : Int) (f1 f2 : FlowIntensity),
      f1 ≠ FlowIntensity.spotting → f2 ≠ FlowIntensity.spotting → d1 < d2 →
      (d2 - d1 ≤ 7 →
        analyzeCyclesFromLogs [⟨d1, some f1⟩, ⟨d2, some f2⟩] defLen =
          [Cycle.mk d1 defLen]) ∧
      (8 ≤ d2 - d1 →
        analyzeCyclesFromLogs [⟨d1, some f1⟩, ⟨d2, some f2⟩] defLen =
          [Cycle.mk d2 defLen, Cycle.mk d1 (d2 - d1)])) ∧
    analyzeCyclesFromLogs
        [⟨daysFromCivil 2024 1 1, some FlowIntensity.medium⟩,
         ⟨daysFromCivil 2024 1 8, some FlowIntensity.medium⟩] 28 =
      [Cycle.mk (daysFromCivil 2024 1 1) 28] ∧
    analyzeCyclesFromLogs
        [⟨daysFromCivil 2024 1 1, some FlowIntensity.medium⟩,
         ⟨daysFromCivil 2024 1 9, some FlowIntensity.medium⟩] 28 =
      [Cycle.mk (daysFromCivil 2024 1 9) 28, Cycle.mk (daysFromCivil 2024 1 1) 8] :=
  ⟨fun d1 d2 defLen f1 f2 hf1 hf2 hlt => analyze_two_logs d1 d2 defLen f1 f2 hf1 hf2 hlt,
   by decide, by decide⟩

/-- C1 witness: the general boundary statement applied at gaps of exactly 7
and exactly 8 days. -/
theorem analyzeCyclesFromLogs_boundary_threshold_witness :
    analyzeCyclesFromLogs
        [⟨19723, some FlowIntensity.medium⟩, ⟨19730, some FlowIntensity.medium⟩] 30 =
      [Cycle.mk 19723 30] ∧
    analyzeCyclesFromLogs
        [⟨19723, some FlowIntensity.medium⟩, ⟨19731, some FlowIntensity.medium⟩] 30 =
      [Cycle.mk 19731 30, Cycle.mk 19723 8] :=
  ⟨(analyzeCyclesFromLogs_boundary_threshold.1 19723 19730 30
      FlowIntensity.medium FlowIntensity.medium (by decide) (by decide) (by decide)).1
      (by decide),
   (analyzeCyclesFromLogs_boundary_threshold.1 19723 19731 30
      FlowIntensity.medium FlowIntensity.medium (by decide) (by decide) (by decide)).2
      (by decide)⟩

/-- C8: the segmenter only ever looks at non-Spotting flow logs — appending a
Spotting log never changes the result, the result is a function of the
qualifying logs alone, a Medium log on 01-01 with a Spotting log on 01-20
yields a single open cycle at 01-01, and an empty or qualifying-free log set
yields no cycles. -/
theorem analyzeCyclesFromLogs_spotting_excluded :
    (∀ (logs : List DailyLog) (defLen d : Int),
      analyzeCyclesFromLogs (logs ++ [⟨d, some FlowIntensity.spotting⟩]) defLen =
        analyzeCyclesFromLogs logs defLen) ∧
    (∀ (logs : List DailyLog) (defLen : Int),
      analyzeCyclesFromLogs logs defLen =
        analyzeCyclesFromLogs (logs.filter qualifies) defLen) ∧
    analyzeCyclesFromLogs
        [⟨daysFromCivil 2024 1 1, some FlowIntensity.medium⟩,
         ⟨daysFromCivil 2024 1 20, some FlowIntensity.spotting⟩] 28 =
      [Cycle.mk (daysFromCivil 2024 1 1) 28] ∧
    analyzeCyclesFromLogs [] 28 = [] ∧
    analyzeCyclesFromLogs [⟨daysFromCivil 2024 1 20, some FlowIntensity.spotting⟩] 28 = [] := by
  refine ⟨?_, ?_, by decide, by decide, by decide⟩
  · intro logs defLen d
    apply analyze_congr
    simp [List.filter_append, List.filter, qualifies]
  · intro logs defLen
    apply analyze_congr
    simp [List.filter_filter]

/-- C9: for every log list and default length, the segmenter's output is
sorted newest-first (strictly descending `startDate`), and the cycle at index
0 — when the output is non-empty — is the still-open most recent cycle
carrying `defaultLength` as its placeholder length. -/
theorem analyzeCyclesFromLogs_newest_first :
    ∀ (logs : List DailyLog) (defLen : Int),
      List.Pairwise (fun a b : Cycle => b.startDate < a.startDate)
          (analyzeCyclesFromLogs logs defLen) ∧
      ∀ c, (analyzeCyclesFromLogs logs defLen).head? = some c → c.length = defLen :=
  fun logs defLen => analyze_sorted_head logs defLen

/-- C9 witness: on two out-of-order Medium logs 8 days apart, the head of the
output is the newer start and carries the default length 28. -/
theorem analyzeCyclesFromLogs_newest_first_witness :
    (analyzeCyclesFromLogs
        [⟨19731, some FlowIntensity.medium⟩, ⟨19723, some FlowIntensity.medium⟩] 28).head? =
      some (Cycle.mk 19731 28) ∧
    (Cycle.mk 19731 28).length = 28 :=
  ⟨by decide,
   (analyzeCyclesFromLogs_newest_first
      [⟨19731, some FlowIntensity.medium⟩, ⟨19723, some FlowIntensity.medium⟩] 28).2
      (Cycle.mk 19731 28) (by decide)⟩

/-- An entry whose marker claims a projected period never claims fertility:
the invariant maintained by the projector's construction. -/
def periodSafe (m : PredictionMap) : Prop :=
  ∀ e ∈ m, (Prod.snd e).isProjectedPeriod = true → (Prod.snd e).isFertile = false

lemma periodSafe_mapSet {m : PredictionMap} {k : Int} {v : Marker} (hm : periodSafe m)
    (hv : v.isProjectedPeriod = true → v.isFertile = false) : periodSafe (mapSet m k v) := by
  unfold mapSet
  split_ifs with h
  · intro e he
    rcases List.mem_map.1 he with ⟨e', he', heq⟩
    by_cases hk : e'.fst = k
    · rw [if_pos hk] at heq
      subst heq
      exact hv
    · rw [if_neg hk] at heq
      subst heq
      exact hm e' he'
  · intro e he
    rcases List.mem_append.1 he with he | he
    · exact hm e he
    · simp only [List.mem_singleton] at he
      subst he
      exact hv

lemma periodSafe_foldl {α : Type} (f : PredictionMap → α → PredictionMap)
    (hf : ∀ m a, periodSafe m → periodSafe (f m a)) :
    ∀ (l : List α) (m : PredictionMap), periodSafe m → periodSafe (l.foldl f m) := by
  intro l
  induction l with
  | nil => intro m hm; exact hm
  | cons a l ih => intro m hm; exact ih _ (hf m a hm)

lemma periodSafe_markFutureCycle (sl pl ls : Int) {m : PredictionMap}
    (hm : periodSafe m) (c : Int) : periodSafe (markFutureCycle sl pl ls m c) := by
  unfold markFutureCycle
  apply periodSafe_foldl
  · intro m' o' hm'
    cases hmg : mapGet m' (ls + sl * c - 14 + ((o' : Int) - 5)) with
    | none => simp only [hmg]; exact periodSafe_mapSet hm' (by intro h; simp at h)
    | some ex =>
        simp only [hmg]
        split_ifs with hp
        · exact hm'
        · exact periodSafe_mapSet hm' (by intro h; simp at h)
  · apply periodSafe_foldl
    · intro m' i hm'
      exact periodSafe_mapSet hm' (fun _ => rfl)
    · exact hm

lemma periodSafe_predictionData (cycles : List Cycle) (acl apl : Int) :
    periodSafe (predictionData cycles acl apl) := by
  unfold predictionData
  cases cycles with
  | nil => intro e he; simp at he
  | cons c0 tl =>
      apply periodSafe_foldl
      · intro m c hm
        exact periodSafe_markFutureCycle _ _ _ hm _
      · intro e he
        simp at he

lemma mapGet_safe {m : PredictionMap} (hm : periodSafe m) {d : Int} {v : Marker}
    (h : mapGet m d = some v) : v.isProjectedPeriod = true → v.isFertile = false := by
  unfold mapGet at h
  rcases Option.map_eq_some'.1 h with ⟨e, he, rfl⟩
  exact hm e (List.mem_of_find?_eq_some he)

set_option maxRecDepth 1000000

/-- C2: in the calendar projector's map a date marked as projected period is
never flagged fertile, for every cycles list and every configured length;
concretely, with anchor 2024-01-01, smart length 28 and period length 5,
cycle 1 marks periods on 2024-01-29..2024-02-02, ovulation on 2024-01-15, the
fertile window on 2024-01-10..2024-01-16, and no period day is fertile. -/
theorem predictionData_period_never_fertile :
    (∀ (cycles : List Cycle) (acl apl d : Int) (v : Marker),
      mapGet (predictionData cycles acl apl) d = some v →
      v.isProjectedPeriod = true → v.isFertile = false) ∧
    mapGet (predictionData [Cycle.mk (daysFromCivil 2024 1 1) 28] 28 5)
        (daysFromCivil 2024 1 29) = some (Marker.mk true false false) ∧
    mapGet (predictionData [Cycle.mk (daysFromCivil 2024 1 1) 28] 28 5)
        (daysFromCivil 2024 1 30) = some (Marker.mk true false false) ∧
    mapGet (predictionData [Cycle.mk (daysFromCivil 2024 1 1) 28] 28 5)
        (daysFromCivil 2024 1 31) = some (Marker.mk true false false) ∧
    mapGet (predictionData [Cycle.mk (daysFromCivil 2024 1 1) 28] 28 5)
        (daysFromCivil 2024 2 1) = some (Marker.mk true false false) ∧
    mapGet (predictionData [Cycle.mk (daysFromCivil 2024 1 1) 28] 28 5)
        (daysFromCivil 2024 2 2) = some (Marker.mk true false false) ∧
    mapGet (predictionData [Cycle.mk (daysFromCivil 2024 1 1) 28] 28 5)
        (daysFromCivil 2024 1 15) = some (Marker.mk false true true) ∧
    mapGet (predictionData [Cycle.mk (daysFromCivil 2024 1 1) 28] 28 5)
        (daysFromCivil 2024 1 10) = some (Marker.mk false true false) ∧
    mapGet (predictionData [Cycle.mk (daysFromCivil 2024 1 1) 28] 28 5)
        (daysFromCivil 2024 1 11) = some (Marker.mk false true false) ∧
    mapGet (predictionData [Cycle.mk (daysFromCivil 2024 1 1) 28] 28 5)
        (daysFromCivil 2024 1 12) = some (Marker.mk false true false) ∧
    mapGet (predictionData [Cycle.mk (daysFromCivil 2024 1 1) 28] 28 5)
        (daysFromCivil 2024 1 13) = some (Marker.mk false true false) ∧
    mapGet (predictionData [Cycle.mk (daysFromCivil 2024 1 1) 28] 28 5)
        (daysFromCivil 2024 1 14) = some (Marker.mk false true false) ∧
    mapGet (predictionData [Cycle.mk (daysFromCivil 2024 1 1) 28] 28 5)
        (daysFromCivil 2024 1 16) = some (Marker.mk false true false) :=
  ⟨fun cycles acl apl d v h => mapGet_safe (periodSafe_predictionData cycles acl apl) h,
   by decide, by decide, by decide, by decide, by decide, by decide, by decide,
   by decide, by decide, by decide, by decide, by decide⟩

/-- C2 witness: the invariant applied to the projected period day 2024-01-29
of the concrete scenario. -/
theorem predictionData_period_never_fertile_witness :
    mapGet (predictionData [Cycle.mk 19723 28] 28 5) 19751 = some (Marker.mk true false false) ∧
    (Marker.mk true false false).isFertile = false :=
  ⟨by decide,
   predictionData_period_never_fertile.1 [Cycle.mk 19723 28] 28 5 19751
     (Marker.mk true false false) (by decide) (by decide)⟩

end FlowIndex
